import Mathlib

/-!
Shallow embedding of the `graph.DriveItem` core of the onedriver repository
(file `src/logger/logger.go`, second unit: package `graph`).

A `DriveItem` mirrors the Go struct of the same name.  Fields that no claim
touches (upload session, modification time, deletion marker, conflict
behavior) are omitted; the per-item mutex is not represented because the
embedding is sequential — where a concurrently mutated field matters (the
re-check inside `ID`), the value observed at that program point is supplied
explicitly by a world record.  Go pointers that may be nil are `Option`;
machine integers are `Nat` (with an `Int` cast where the source compares
against `int(...) - 1`, and `% 2^32` where the source casts to `uint32`).
Go slice operations that would panic make the operation return `none`.
-/

/-- Authentication context (`Auth`); only the access token is consumed by the
modeled code. -/
structure Auth where
  AccessToken : String
deriving DecidableEq, Repr

/-- A Go `error` value, carrying its message (`err.Error()`). -/
structure GoError where
  msg : String
deriving DecidableEq, Repr

/-- Folder facet (`Folder` struct of the source, used for parsing only). -/
structure Folder where
  ChildCount : Nat
deriving DecidableEq, Repr

/-- File facet (`File` struct of the source, used for parsing only). -/
structure File where
  MimeType : String
deriving DecidableEq, Repr

/-- Parent reference (`DriveItemParent`): the parent's identifier and stored
path.  The non-owning `item *DriveItem` back-pointer is not stored here (an
inductive value cannot alias its ancestor); operations that walk it —
`getRoot` — take the chain of ancestors as an explicit list instead. -/
structure DriveItemParent where
  ID : String
  Path : String
deriving DecidableEq, Repr

/-- The fields of a `DriveItem`, parametric in the type of child items so the
recursive knot can be tied below.  `data` is the content buffer (`*[]byte`,
nil possible); `children` is the child map (`map[string]*DriveItem`, nil until
populated), modeled as an association list keyed by lower-cased name; `auth`
is only populated for the root item. -/
structure DriveItemData (α : Type) where
  IDInternal : String
  NameInternal : String
  SizeInternal : Nat
  mode : Nat
  Parent : DriveItemParent
  FileInternal : Option File
  Folder : Option Folder
  data : Option (List Nat)
  hasChanges : Bool
  subdir : Nat
  auth : Option Auth
  children : Option (List (String × α))

/-- A drive item: the recursive closure of `DriveItemData`. -/
inductive DriveItem : Type where
  | mk : DriveItemData DriveItem → DriveItem

/-- Projection to the field record. -/
def DriveItem.core : DriveItem → DriveItemData DriveItem
  | .mk c => c

@[simp]
theorem DriveItem.core_mk (c : DriveItemData DriveItem) : (DriveItem.mk c).core = c := rfl

@[simp]
theorem DriveItem.mk_core (d : DriveItem) : DriveItem.mk d.core = d := by
  cases d
  rfl

/-- fuse.S_IFDIR (0o040000). -/
def S_IFDIR : Nat := 0o040000

/-- fuse.S_IFREG (0o100000). -/
def S_IFREG : Nat := 0o100000

/-- fuse.OK, the success status. -/
def fuseOK : Nat := 0

/-- Name returns the item's name (`Name()`, a copy accessor). -/
def DriveItem.Name (d : DriveItem) : String := d.core.NameInternal

/-- Body of `Mode()`.  The source method has a value receiver
(`func (d DriveItem) Mode() uint32`), so assignments to `d.mode` inside it
mutate a local copy of the receiver; the pair returned here is (result,
the mutated local copy).  The copy is discarded when the method returns. -/
def modeBody (d : DriveItem) : Nat × DriveItem :=
  if d.core.mode = 0 then -- only 0 if fetched from Graph API
    if d.core.FileInternal = none then -- nil if a folder
      (S_IFDIR ||| 0o755, .mk { d.core with mode := S_IFDIR ||| 0o755 })
    else
      (S_IFREG ||| 0o644, .mk { d.core with mode := S_IFREG ||| 0o644 })
  else
    (d.core.mode, d)

/-- Mode returns the permissions/mode of the file: the first component of the
method body's result. -/
def DriveItem.Mode (d : DriveItem) : Nat := (modeBody d).1

/-- The caller-visible receiver after a `Mode()` call.  Because the receiver
is passed by value in the source, the caller's item is unchanged: the
memoizing assignment inside `modeBody` lands on the discarded copy. -/
def itemAfterMode (d : DriveItem) : DriveItem := d

/-- IsDir returns whether the dir bit of the mode word is set. -/
def DriveItem.IsDir (d : DriveItem) : Bool := 0 < (d.Mode &&& S_IFDIR)

/-- NLink gives the number of hard links (2 + subdir for directories, 1 for
files). -/
def DriveItem.NLink (d : DriveItem) : Nat :=
  if d.IsDir then 2 + d.core.subdir else 1

/-- Size pretends folders are 4096 bytes; for files it is the declared size. -/
def DriveItem.Size (d : DriveItem) : Nat :=
  if d.IsDir then 4096 else d.core.SizeInternal

/-- strings.TrimPrefix: drop `p` from the front of `s` when it is a prefix,
otherwise return `s` unchanged.  Phrased at the character level (Go works on
bytes; the marker here is ASCII, where the two coincide). -/
def goTrimPrefixStr (s p : String) : String :=
  if p.toList.isPrefixOf s.toList then (s.toList.drop p.toList.length).asString else s

/-- strings.Replace(s, "//", "/", -1) at the character level: Go replaces
non-overlapping occurrences from left to right, which this recursion
mirrors. -/
def collapseChars : List Char → List Char
  | [] => []
  | [c] => [c]
  | c1 :: c2 :: rest =>
    if c1 = '/' ∧ c2 = '/' then '/' :: collapseChars rest
    else c1 :: collapseChars (c2 :: rest)

/-- strings.Replace(s, "//", "/", -1) on strings. -/
def goReplaceDoubleSlash (s : String) : String := (collapseChars s.toList).asString

/-- Whether two consecutive '/' occur somewhere (spec-side predicate for
"duplicate separators"). -/
def hasDoubleSlash : List Char → Bool
  | c1 :: c2 :: rest => (c1 == '/' && c2 == '/') || hasDoubleSlash (c2 :: rest)
  | _ => false

/-- Whether three consecutive '/' occur somewhere. -/
def hasTripleSlash : List Char → Bool
  | c1 :: c2 :: c3 :: rest => (c1 == '/' && c2 == '/' && c3 == '/') || hasTripleSlash (c2 :: c3 :: rest)
  | _ => false

/-- Path returns an item's full path: the root special case, then the
parent-path/name concatenation with the "/drive/root:" marker trimmed and
"//" replaced by "/". -/
def DriveItem.Path (d : DriveItem) : String :=
  if d.core.Parent.Path = "" ∧ d.Name = "root" then "/"
  else goReplaceDoubleSlash (goTrimPrefixStr (d.core.Parent.Path ++ "/" ++ d.Name) "/drive/root:")

/-- Go's builtin `copy(dst, src)` as a value: the first `min |src| |dst|`
elements of `dst` are overwritten by those of `src`. -/
def goSliceCopy (dst src : List Nat) : List Nat :=
  src.take (min src.length dst.length) ++ dst.drop (min src.length dst.length)

/-- Result of `Read`: the returned byte slice (fuse.ReadResultData) and the
fuse status. -/
structure ReadOut where
  bytes : List Nat
  status : Nat
deriving DecidableEq, Repr

/-- Read from a DriveItem like a file: `end := off + len(buf)` clamped to the
buffer length, then the slice `(*d.data)[off:end]`.  Returns `none` when the
source would panic: a nil `data` pointer, or a slice expression with
`off > end` (which Go rejects regardless of capacity). -/
def DriveItem.Read (d : DriveItem) (bufLen off : Nat) : Option ReadOut :=
  match d.core.data with
  | none => none
  | some buf =>
    let endIdx := min (off + bufLen) buf.length
    if off > endIdx then none
    else some { bytes := (buf.drop off).take (endIdx - off), status := fuseOK }

/-- Result of `Write`: the reported byte count (`uint32(nWrite)`), the fuse
status and the item afterwards. -/
structure WriteOut where
  nWritten : Nat
  status : Nat
  item : DriveItem

/-- Write to a DriveItem like a file.  The source compares
`offset+nWrite > int(d.SizeInternal)-1` over Go ints, hence the `Int` cast
here; past the size it appends `append((*d.data)[:offset], data...)`,
otherwise it overwrites in place with `copy((*d.data)[offset:], data)`.
After either branch the declared size is resynced to the buffer length and
the dirty flag set.  Returns `none` when the source would panic or read
spare capacity: a nil `data` pointer, or `offset` beyond the buffer length
(both branches slice at `offset`). -/
def DriveItem.Write (d : DriveItem) (bytes : List Nat) (off : Nat) : Option WriteOut :=
  match d.core.data with
  | none => none
  | some buf =>
    if off > buf.length then none
    else
      let newBuf :=
        if ((off : Int) + bytes.length > (d.core.SizeInternal : Int) - 1) then
          -- we've exceeded the file size, overwrite via append
          buf.take off ++ bytes
        else
          -- writing inside the current file, overwrite in place
          buf.take off ++ goSliceCopy (buf.drop off) bytes
      some { nWritten := bytes.length % 2 ^ 32, status := fuseOK,
             item := .mk { d.core with data := some newBuf,
                                       SizeInternal := newBuf.length,
                                       hasChanges := true } }

/-- Result of `Truncate`: the fuse status and the item afterwards. -/
structure StatusOut where
  status : Nat
  item : DriveItem

/-- Truncate cuts a file in place: `*d.data = (*d.data)[:size]`, declared
size updated, dirty flag set.  Returns `none` when the source would panic or
read spare capacity: a nil `data` pointer, or `size` beyond the buffer
length (only shrinking is modeled, as only shrinking is exercised). -/
def DriveItem.Truncate (d : DriveItem) (size : Nat) : Option StatusOut :=
  match d.core.data with
  | none => none
  | some buf =>
    if size > buf.length then none
    else some { status := fuseOK,
                item := .mk { d.core with data := some (buf.take size),
                                          SizeInternal := size,
                                          hasChanges := true } }

/-- Go map assignment `m[k] = v`: replace the binding when the key is
present, add it otherwise. -/
def mapInsert (m : List (String × DriveItem)) (k : String) (v : DriveItem) :
    List (String × DriveItem) :=
  match m with
  | [] => [(k, v)]
  | (k0, v0) :: rest => if k0 = k then (k, v) :: rest else (k0, v0) :: mapInsert rest k v

/-- The population loop of `GetChildren`: for each fetched child, bump the
subdirectory counter when the child is a directory and insert it under its
lower-cased name.  (Setting `child.Parent.item = d` and the child's mutex are
back-pointer / lock plumbing with no counterpart in the value model.) -/
def populateChildren (lst : List DriveItem) (m : List (String × DriveItem)) (sd : Nat) :
    List (String × DriveItem) × Nat :=
  match lst with
  | [] => (m, sd)
  | child :: rest =>
      populateChildren rest (mapInsert m child.Name.toLower child)
        (if child.IsDir then sd + 1 else sd)

/-- Result of `GetChildren`: the returned map (nil on error), the item
afterwards, and whether a listing fetch (`Get(ChildrenPath(...))`) was
issued. -/
structure GetChildrenOut where
  result : Except GoError (Option (List (String × DriveItem)))
  item : DriveItem
  fetched : Bool

/-- GetChildren fetches all children of the item.  The `listing` argument is
the outcome of `Get(ChildrenPath(d.Path()), auth)` followed by unmarshaling
(whose own error the source discards).  Non-directories and items whose
child cache is already non-nil return the cache without fetching; a fetch
error is returned with the item untouched; otherwise the cache is populated
and returned. -/
def DriveItem.GetChildren (d : DriveItem)
    (listing : Except GoError (List DriveItem)) : GetChildrenOut :=
  if !d.IsDir || d.core.children.isSome then
    { result := .ok d.core.children, item := d, fetched := false }
  else
    match listing with
    | .error e => { result := .error e, item := d, fetched := true }
    | .ok lst =>
        let p := populateChildren lst [] d.core.subdir
        { result := .ok (some p.1),
          item := .mk { d.core with children := some p.1, subdir := p.2 },
          fetched := true }

/-- getRoot walks the parent chain until an item whose parent path is empty.
The chain argument is the sequence of ancestors reached through the
`Parent.item` back-pointers, starting at the immediate parent; `none` models
the nil-pointer dereference of a malformed chain. -/
def getRoot : List DriveItem → Option DriveItem
  | [] => none
  | p :: rest => if p.core.Parent.Path = "" then some p else getRoot rest

/-- Result of `Flush`: the fuse status, the item afterwards, whether an
upload goroutine was dispatched, and the auth handed to it. -/
structure FlushOut where
  status : Nat
  item : DriveItem
  uploadDispatched : Bool
  uploadAuth : Option Auth

/-- Flush is called when a file descriptor is closed.  If the dirty flag is
set it is cleared and `go d.Upload(auth)` is dispatched with the root item's
auth (`*d.getRoot().auth`); otherwise nothing is dispatched.  Returns `none`
when the source would nil-dereference: no root in the chain, or a root with
a nil auth pointer. -/
def DriveItem.Flush (d : DriveItem) (chain : List DriveItem) : Option FlushOut :=
  if d.core.hasChanges then
    match getRoot chain with
    | none => none
    | some r =>
      match r.core.auth with
      | none => none
      | some a =>
          some { status := fuseOK,
                 item := .mk { d.core with hasChanges := false },
                 uploadDispatched := true,
                 uploadAuth := some a }
  else
    some { status := fuseOK, item := d, uploadDispatched := false, uploadAuth := none }

/-- strings.Contains, at the character level. -/
def strContains (s sub : List Char) : Bool :=
  sub.isPrefixOf s ||
    match s with
    | [] => false
    | _ :: rest => strContains rest sub

/-- The environment `ID` interacts with.  `put` is the transport
`Put(path, auth, body)` (body is always empty here); `atRecheck` is the live
item's state at the locked re-read inside the nameAlreadyExists branch
(another goroutine may have set its identifier since the snapshot);
`getItem` is `GetItem(path, auth)`; `unmarshalID` is the json.Unmarshal of a
successful upload response into a throwaway item, of which only the decoded
`IDInternal` is consumed. -/
structure IDWorld where
  put : String → Except GoError (List Nat)
  atRecheck : DriveItem
  getItem : String → Except GoError DriveItem
  unmarshalID : List Nat → Except GoError String

/-- Result of `ID`: the returned identifier and error, the caller-visible
item afterwards, and the arguments of the transport calls that were issued
(`none` when the call was not made). -/
structure IDOut where
  id : String
  err : Option GoError
  item : DriveItem
  putArg : Option String
  getItemArg : Option String

/-- The upload path `fmt.Sprintf("/me/drive/items/%s:/%s:/content", parentID, name)`. -/
def uploadPathOf (d : DriveItem) : String :=
  "/me/drive/items/" ++ d.core.Parent.ID ++ ":/" ++ d.Name ++ ":/content"

/-- ID uploads an empty file to obtain an identifier if the item does not
already have one.  Fast path for directories; no-op when an identifier is
cached or the access token is empty.  On a Put failure whose message
contains "nameAlreadyExists": return the live item's identifier if another
goroutine has set it, else adopt the identifier of the item fetched by path;
if that fetch also fails, the `latest, err :=` inside the branch shadows the
outer `err`, so the original Put error is returned.  On Put success the
response is decoded into a throwaway item and its identifier persisted. -/
def DriveItem.ID (d : DriveItem) (auth : Auth) (w : IDWorld) : IDOut :=
  if d.IsDir then
    { id := d.core.IDInternal, err := none, item := d, putArg := none, getItemArg := none }
  else if d.core.IDInternal = "" ∧ auth.AccessToken ≠ "" then
    let uploadPath := uploadPathOf d
    match w.put uploadPath with
    | .error e =>
      if strContains e.msg.toList "nameAlreadyExists".toList then
        -- Do we have it (from another thread)?
        let id := w.atRecheck.core.IDInternal
        let path := w.atRecheck.Path
        if id ≠ "" then
          { id := id, err := none, item := d, putArg := some uploadPath, getItemArg := none }
        else
          -- Does the server have it?
          match w.getItem path with
          | .ok latest =>
              { id := latest.core.IDInternal, err := none, item := d,
                putArg := some uploadPath, getItemArg := some path }
          | .error _ =>
              -- the inner err is shadowed: the original Put error propagates
              { id := "", err := some e, item := d,
                putArg := some uploadPath, getItemArg := some path }
      else
        { id := "", err := some e, item := d, putArg := some uploadPath, getItemArg := none }
    | .ok resp =>
      match w.unmarshalID resp with
      | .error e2 =>
          { id := "", err := some e2, item := d, putArg := some uploadPath, getItemArg := none }
      | .ok newID =>
          { id := newID, err := none, item := .mk { d.core with IDInternal := newID },
            putArg := some uploadPath, getItemArg := none }
  else
    { id := d.core.IDInternal, err := none, item := d, putArg := none, getItemArg := none }

/-!
Helper lemmas and concrete sample items, shared by the claim theorems below.
-/

/-- Closed form of `Mode` (the first component of the method body). -/
theorem mode_eq (d : DriveItem) :
    d.Mode = (if d.core.mode = 0 then
      (if d.core.FileInternal = none then S_IFDIR ||| 0o755 else S_IFREG ||| 0o644)
      else d.core.mode) := by
  by_cases h1 : d.core.mode = 0
  · by_cases h2 : d.core.FileInternal = none <;> simp [DriveItem.Mode, modeBody, h1, h2]
  · simp [DriveItem.Mode, modeBody, h1]

/-- Directory classification depends only on the mode word and the file
facet, so updates to other fields preserve it. -/
theorem isDir_congr (d d' : DriveItem) (hm : d'.core.mode = d.core.mode)
    (hf : d'.core.FileInternal = d.core.FileInternal) : d'.IsDir = d.IsDir := by
  simp [DriveItem.IsDir, mode_eq, hm, hf]

/-- A concrete file item with content [1, 2] and a consistent declared size. -/
def sampleFile : DriveItem := .mk
  { IDInternal := "", NameInternal := "report.txt", SizeInternal := 2, mode := 0,
    Parent := { ID := "parentid", Path := "/drive/root:/docs" },
    FileInternal := some { MimeType := "text/plain" }, Folder := none,
    data := some [1, 2], hasChanges := false, subdir := 0, auth := none, children := none }

/-- A concrete directory item with an unfetched child cache. -/
def sampleDir : DriveItem := .mk
  { IDInternal := "dirid", NameInternal := "docs", SizeInternal := 0, mode := 0,
    Parent := { ID := "rootid", Path := "/drive/root:" },
    FileInternal := none, Folder := some { ChildCount := 2 },
    data := none, hasChanges := false, subdir := 0, auth := none, children := none }

/-- A concrete root item owning the authentication context. -/
def sampleRoot : DriveItem := .mk
  { IDInternal := "rootid", NameInternal := "root", SizeInternal := 0, mode := 0,
    Parent := { ID := "", Path := "" },
    FileInternal := none, Folder := some { ChildCount := 1 },
    data := none, hasChanges := false, subdir := 0,
    auth := some { AccessToken := "tok" }, children := none }

/-- A world for `ID` whose transport calls are never reached. -/
def wUnused : IDWorld :=
  { put := fun _ => .error { msg := "unused" }, atRecheck := sampleRoot,
    getItem := fun _ => .error { msg := "unused" }, unmarshalID := fun _ => .ok "unused" }

/-- C10: for a file item with no cached identifier and an empty access token,
ID issues no placeholder upload (and no path query) and returns the empty
identifier with a nil error, leaving the item unchanged. -/
theorem id_empty_token_noop (d : DriveItem) (auth : Auth) (w : IDWorld)
    (hfile : d.IsDir = false) (hid : d.core.IDInternal = "")
    (htok : auth.AccessToken = "") :
    d.ID auth w = { id := "", err := none, item := d, putArg := none, getItemArg := none } := by
  simp [DriveItem.ID, hfile, hid, htok]

/-- C10 witness: the theorem evaluated on a concrete file item and the empty
token. -/
theorem id_empty_token_noop_witness :
    sampleFile.ID { AccessToken := "" } wUnused
      = { id := "", err := none, item := sampleFile, putArg := none, getItemArg := none } :=
  id_empty_token_noop sampleFile { AccessToken := "" } wUnused (by decide) rfl rfl

/-- C7: Flush dispatches an upload if and only if the dirty flag is set at
the time of the call: with the flag clear it issues no upload and returns
success with the item unchanged; with the flag set it returns success having
cleared the flag and dispatched an upload carrying the auth of the root item
found by walking the parent chain. -/
theorem flush_dispatch_iff_dirty (d : DriveItem) (chain : List DriveItem)
    (r : DriveItem) (a : Auth) :
    (d.core.hasChanges = false →
      d.Flush chain = some { status := fuseOK, item := d,
                             uploadDispatched := false, uploadAuth := none }) ∧
    (d.core.hasChanges = true → getRoot chain = some r → r.core.auth = some a →
      d.Flush chain = some { status := fuseOK,
                             item := .mk { d.core with hasChanges := false },
                             uploadDispatched := true, uploadAuth := some a }) := by
  constructor
  · intro h
    simp [DriveItem.Flush, h]
  · intro h hr ha
    simp [DriveItem.Flush, h, hr, ha]

/-- A dirty copy of the sample file. -/
def sampleDirtyFile : DriveItem := .mk { sampleFile.core with hasChanges := true }

/-- C7 witness: the theorem evaluated on a clean item and on a dirty item
whose parent chain is [sampleRoot]. -/
theorem flush_dispatch_iff_dirty_witness :
    (sampleDirtyFile.core.hasChanges = false →
      sampleDirtyFile.Flush [sampleRoot]
        = some { status := fuseOK, item := sampleDirtyFile,
                 uploadDispatched := false, uploadAuth := none }) ∧
    (sampleDirtyFile.core.hasChanges = true →
      getRoot [sampleRoot] = some sampleRoot →
      sampleRoot.core.auth = some { AccessToken := "tok" } →
      sampleDirtyFile.Flush [sampleRoot]
        = some { status := fuseOK,
                 item := .mk { sampleDirtyFile.core with hasChanges := false },
                 uploadDispatched := true, uploadAuth := some { AccessToken := "tok" } }) :=
  flush_dispatch_iff_dirty sampleDirtyFile [sampleRoot] sampleRoot { AccessToken := "tok" }

/-- C6: on a directory whose child cache is nil, a failing listing fetch
makes GetChildren return the transport error, with the item unchanged — the
child cache is still nil (so a later call retries) and the subdirectory
counter untouched. -/
theorem children_error_leaves_cache (d : DriveItem) (e : GoError)
    (hdir : d.IsDir = true) (hnil : d.core.children = none) :
    (d.GetChildren (.error e)).result = .error e ∧
    (d.GetChildren (.error e)).item = d ∧
    (d.GetChildren (.error e)).fetched = true ∧
    (d.GetChildren (.error e)).item.core.children = none ∧
    (d.GetChildren (.error e)).item.core.subdir = d.core.subdir := by
  simp [DriveItem.GetChildren, hdir, hnil]

/-- C6 witness: the theorem evaluated on a concrete directory and error. -/
theorem children_error_leaves_cache_witness :
    (sampleDir.GetChildren (.error { msg := "network down" })).result
        = .error { msg := "network down" } ∧
    (sampleDir.GetChildren (.error { msg := "network down" })).item = sampleDir ∧
    (sampleDir.GetChildren (.error { msg := "network down" })).fetched = true ∧
    (sampleDir.GetChildren (.error { msg := "network down" })).item.core.children = none ∧
    (sampleDir.GetChildren (.error { msg := "network down" })).item.core.subdir
        = sampleDir.core.subdir :=
  children_error_leaves_cache sampleDir { msg := "network down" } (by decide) rfl

/-- A file item as decoded from a Graph listing: identifier present, mode
word not supplied (0), file facet present. -/
def graphFile : DriveItem := .mk
  { IDInternal := "id123", NameInternal := "a.txt", SizeInternal := 7, mode := 0,
    Parent := { ID := "dirid", Path := "/drive/root:/docs" },
    FileInternal := some { MimeType := "text/plain" }, Folder := none,
    data := none, hasChanges := false, subdir := 0, auth := none, children := none }

/-- C3 counterexample: `Mode()` has a value receiver, so the memoizing
assignment lands on a discarded copy.  After the first query on a concrete
item the stored mode word is still 0, which is not the value Mode returns —
so later calls do not read a stored classification, contradicting the
claim. -/
theorem mode_not_memoized_cx :
    (itemAfterMode graphFile).core.mode = 0 ∧
    graphFile.Mode ≠ (itemAfterMode graphFile).core.mode := by
  exact ⟨rfl, by decide⟩

/-- C3 (amended): for an item whose mode word was not supplied, every Mode()
query classifies it as directory-mode (file facet absent) or file-mode with
the fixed default permission bits; the memoizing write-back goes to the
method's by-value receiver copy and is discarded, so the caller's item is
unchanged and its stored mode stays 0; the returned value is nevertheless
the same on every call. -/
theorem mode_recomputed_each_call (d : DriveItem) (hm : d.core.mode = 0) :
    (d.core.FileInternal = none → d.Mode = S_IFDIR ||| 0o755) ∧
    (d.core.FileInternal ≠ none → d.Mode = S_IFREG ||| 0o644) ∧
    itemAfterMode d = d ∧
    (itemAfterMode d).core.mode = 0 ∧
    (itemAfterMode d).Mode = d.Mode := by
  refine ⟨?_, ?_, rfl, hm, rfl⟩ <;> intro h <;> simp [mode_eq, hm, h]

/-- C3 witness: the amended theorem evaluated on the concrete file item. -/
theorem mode_recomputed_each_call_witness :
    (graphFile.core.FileInternal = none → graphFile.Mode = S_IFDIR ||| 0o755) ∧
    (graphFile.core.FileInternal ≠ none → graphFile.Mode = S_IFREG ||| 0o644) ∧
    itemAfterMode graphFile = graphFile ∧
    (itemAfterMode graphFile).core.mode = 0 ∧
    (itemAfterMode graphFile).Mode = graphFile.Mode :=
  mode_recomputed_each_call graphFile rfl

/-- Once the child cache is non-nil, GetChildren returns it without fetching
and without touching the item. -/
theorem getChildren_cached (x : DriveItem) (w : Except GoError (List DriveItem))
    (h : x.core.children.isSome = true) :
    x.GetChildren w = { result := .ok x.core.children, item := x, fetched := false } := by
  simp [DriveItem.GetChildren, h]

/-- C5: on a directory whose child cache is nil, one GetChildren call with a
successful listing fetches; the resulting cache is non-nil even for an empty
listing, and a second call — whatever its transport would answer — does not
fetch, returns exactly the cached map, and leaves the item unchanged. -/
theorem children_fetched_once (d : DriveItem) (lst : List DriveItem)
    (w2 : Except GoError (List DriveItem))
    (hdir : d.IsDir = true) (hnil : d.core.children = none) :
    (d.GetChildren (.ok lst)).fetched = true ∧
    ((d.GetChildren (.ok lst)).item.core.children).isSome = true ∧
    ((d.GetChildren (.ok lst)).item.GetChildren w2).fetched = false ∧
    ((d.GetChildren (.ok lst)).item.GetChildren w2).result
        = .ok ((d.GetChildren (.ok lst)).item.core.children) ∧
    ((d.GetChildren (.ok lst)).item.GetChildren w2).item
        = (d.GetChildren (.ok lst)).item := by
  have h1 : d.GetChildren (.ok lst)
      = { result := .ok (some (populateChildren lst [] d.core.subdir).1),
          item := .mk { d.core with
                          children := some (populateChildren lst [] d.core.subdir).1,
                          subdir := (populateChildren lst [] d.core.subdir).2 },
          fetched := true } := by
    simp [DriveItem.GetChildren, hdir, hnil]
  have hsome : ((d.GetChildren (.ok lst)).item.core.children).isSome = true := by
    rw [h1]
    exact rfl
  have h2 : (d.GetChildren (.ok lst)).item.GetChildren w2
      = { result := .ok ((d.GetChildren (.ok lst)).item.core.children),
          item := (d.GetChildren (.ok lst)).item, fetched := false } :=
    getChildren_cached _ w2 hsome
  exact ⟨by rw [h1], hsome, by rw [h2], by rw [h2], by rw [h2]⟩

/-- C5 witness: the theorem evaluated on a concrete directory, with an empty
first listing and an error readied for the (never-issued) second fetch. -/
theorem children_fetched_once_witness :
    (sampleDir.GetChildren (.ok [])).fetched = true ∧
    ((sampleDir.GetChildren (.ok [])).item.core.children).isSome = true ∧
    ((sampleDir.GetChildren (.ok [])).item.GetChildren (.error { msg := "later" })).fetched
        = false ∧
    ((sampleDir.GetChildren (.ok [])).item.GetChildren (.error { msg := "later" })).result
        = .ok ((sampleDir.GetChildren (.ok [])).item.core.children) ∧
    ((sampleDir.GetChildren (.ok [])).item.GetChildren (.error { msg := "later" })).item
        = (sampleDir.GetChildren (.ok [])).item :=
  children_fetched_once sampleDir [] (.error { msg := "later" }) (by decide) rfl

/-- The subdirectory counter after the population loop: its start value plus
one per directory child in the listing. -/
theorem populateChildren_subdir (lst : List DriveItem) :
    ∀ m sd, (populateChildren lst m sd).2 = sd + lst.countP (fun c => c.IsDir) := by
  induction lst with
  | nil => intro m sd; simp [populateChildren]
  | cons c rest ih =>
    intro m sd
    by_cases h : c.IsDir
    all_goals simp [populateChildren, h, ih, List.countP_cons]
    all_goals omega

/-- C8: NLink is 1 for files; for a directory freshly populated by
GetChildren from a listing it is 2 plus the number of directory children in
that listing (the subdirectory counter being bumped once per directory child
during population). -/
theorem nlink_two_plus_subdirs (d : DriveItem) (lst : List DriveItem)
    (hdir : d.IsDir = true) (hnil : d.core.children = none)
    (hsd : d.core.subdir = 0) :
    (d.GetChildren (.ok lst)).item.NLink = 2 + lst.countP (fun c => c.IsDir) ∧
    (∀ f : DriveItem, f.IsDir = false → f.NLink = 1) := by
  constructor
  · have h1 : d.GetChildren (.ok lst)
        = { result := .ok (some (populateChildren lst [] d.core.subdir).1),
            item := .mk { d.core with
                            children := some (populateChildren lst [] d.core.subdir).1,
                            subdir := (populateChildren lst [] d.core.subdir).2 },
            fetched := true } := by
      simp [DriveItem.GetChildren, hdir, hnil]
    have hdir1 : (d.GetChildren (.ok lst)).item.IsDir = true := by
      have hc := isDir_congr d (DriveItem.mk { d.core with
          children := some (populateChildren lst [] d.core.subdir).1,
          subdir := (populateChildren lst [] d.core.subdir).2 }) rfl rfl
      rw [h1]
      exact hc.trans hdir
    simp only [DriveItem.NLink, if_pos hdir1]
    rw [h1]
    simp [populateChildren_subdir, hsd]
  · intro f hf
    simp [DriveItem.NLink, hf]

/-- A directory child and a file child, as they would arrive in a listing. -/
def listedSubdir : DriveItem := .mk
  { IDInternal := "sub1", NameInternal := "Sub", SizeInternal := 0, mode := 0,
    Parent := { ID := "dirid", Path := "/drive/root:/docs" },
    FileInternal := none, Folder := some { ChildCount := 0 },
    data := none, hasChanges := false, subdir := 0, auth := none, children := none }

/-- A file child, as it would arrive in a listing. -/
def listedFile : DriveItem := .mk
  { IDInternal := "f1", NameInternal := "Notes.txt", SizeInternal := 3, mode := 0,
    Parent := { ID := "dirid", Path := "/drive/root:/docs" },
    FileInternal := some { MimeType := "text/plain" }, Folder := none,
    data := none, hasChanges := false, subdir := 0, auth := none, children := none }

/-- C8 witness: the theorem evaluated on a concrete directory and a listing
holding one subdirectory and one file. -/
theorem nlink_two_plus_subdirs_witness :
    (sampleDir.GetChildren (.ok [listedSubdir, listedFile])).item.NLink
        = 2 + [listedSubdir, listedFile].countP (fun c => c.IsDir) ∧
    (∀ f : DriveItem, f.IsDir = false → f.NLink = 1) :=
  nlink_two_plus_subdirs sampleDir [listedSubdir, listedFile] (by decide) rfl rfl

/-- A cons cell survives collapsing with its head intact. -/
theorem collapseChars_cons (c : Char) (l : List Char) :
    ∃ t, collapseChars (c :: l) = c :: t := by
  match l with
  | [] => exact ⟨[], rfl⟩
  | x :: t =>
    by_cases h : c = '/' ∧ x = '/'
    · obtain ⟨h1, h2⟩ := h
      subst h1
      subst h2
      exact ⟨collapseChars t, by simp [collapseChars]⟩
    · exact ⟨collapseChars (x :: t), by simp [collapseChars, h]⟩

/-- Dropping the head cannot create a triple slash. -/
theorem hasTripleSlash_tail {c : Char} {l : List Char}
    (h : hasTripleSlash (c :: l) = false) : hasTripleSlash l = false := by
  match l with
  | [] => rfl
  | [x] => rfl
  | x :: y :: t =>
    rw [hasTripleSlash] at h
    simpa using (Bool.or_eq_false_iff.mp h).2

/-- A single pass replacing "//" by "/" eliminates all doubled slashes when
the input has no three consecutive slashes. -/
theorem collapseChars_no_double (l : List Char)
    (h : hasTripleSlash l = false) : hasDoubleSlash (collapseChars l) = false := by
  induction l using collapseChars.induct with
  | case1 => rfl
  | case2 c => rfl
  | case3 c1 c2 rest hif ih =>
    obtain ⟨h1, h2⟩ := hif
    subst h1
    subst h2
    rw [collapseChars, if_pos ⟨rfl, rfl⟩]
    have hrest : hasTripleSlash rest = false := hasTripleSlash_tail (hasTripleSlash_tail h)
    have hd : hasDoubleSlash (collapseChars rest) = false := ih hrest
    match rest, hd, h with
    | [], _, _ => rfl
    | c3 :: rest2, hd, h =>
      obtain ⟨t, ht⟩ := collapseChars_cons c3 rest2
      have hc3 : (c3 == '/') = false := by
        rw [hasTripleSlash] at h
        have := (Bool.or_eq_false_iff.mp h).1
        simpa using this
      rw [ht]
      rw [ht] at hd
      rw [hasDoubleSlash]
      simp [hc3, hd]
  | case4 c1 c2 rest hif ih =>
    rw [collapseChars, if_neg hif]
    have hrest : hasTripleSlash (c2 :: rest) = false := hasTripleSlash_tail h
    have hd : hasDoubleSlash (collapseChars (c2 :: rest)) = false := ih hrest
    obtain ⟨t, ht⟩ := collapseChars_cons c2 rest
    rw [ht]
    rw [ht] at hd
    rw [hasDoubleSlash]
    have hne : (c1 == '/' && c2 == '/') = false := by
      by_cases hb1 : c1 = '/'
      · by_cases hb2 : c2 = '/'
        · exact absurd ⟨hb1, hb2⟩ hif
        · simp [hb2]
      · simp [hb1]
    simp [hne, hd]

/-- Converting a character list to a string and back is the identity. -/
theorem toList_asString (l : List Char) : l.asString.toList = l := rfl

/-- C9: Path is computed from the parent's stored path, a '/' separator and
the item's own name; the root item (empty parent path, name "root") is
special-cased to "/"; the "/drive/root:" marker is stripped from the front
and doubled separators are collapsed — in particular, whenever the
concatenation has no three consecutive slashes, the resulting path contains
no doubled slash at all.  (Path is a pure function of the item, so it is
recomputed on every call and stable absent mutation.) -/
theorem path_root_and_formula (d : DriveItem) :
    (d.core.Parent.Path = "" ∧ d.Name = "root" → d.Path = "/") ∧
    (¬(d.core.Parent.Path = "" ∧ d.Name = "root") →
      d.Path = goReplaceDoubleSlash
        (goTrimPrefixStr (d.core.Parent.Path ++ "/" ++ d.Name) "/drive/root:") ∧
      (hasTripleSlash
          (goTrimPrefixStr (d.core.Parent.Path ++ "/" ++ d.Name) "/drive/root:").toList
            = false →
        hasDoubleSlash d.Path.toList = false)) := by
  constructor
  · intro h
    simp [DriveItem.Path, h]
  · intro h
    have hp : d.Path = goReplaceDoubleSlash
        (goTrimPrefixStr (d.core.Parent.Path ++ "/" ++ d.Name) "/drive/root:") := by
      simp [DriveItem.Path, h]
    refine ⟨hp, fun h3 => ?_⟩
    rw [hp, goReplaceDoubleSlash, toList_asString]
    exact collapseChars_no_double _ h3

/-- C9 witness: the theorem evaluated on the root item and on a child item
whose parent path carries the "/drive/root:" marker. -/
theorem path_root_and_formula_witness :
    sampleRoot.Path = "/" ∧ sampleFile.Path = "/docs/report.txt" ∧
    (¬(sampleFile.core.Parent.Path = "" ∧ sampleFile.Name = "root") →
      sampleFile.Path = goReplaceDoubleSlash
        (goTrimPrefixStr (sampleFile.core.Parent.Path ++ "/" ++ sampleFile.Name)
          "/drive/root:") ∧
      (hasTripleSlash
          (goTrimPrefixStr (sampleFile.core.Parent.Path ++ "/" ++ sampleFile.Name)
            "/drive/root:").toList = false →
        hasDoubleSlash sampleFile.Path.toList = false)) := by
  refine ⟨(path_root_and_formula sampleRoot).1 (by exact ⟨rfl, rfl⟩), by decide,
    (path_root_and_formula sampleFile).2⟩

/-- C2: on an item whose declared size matches its buffer (the consistency
invariant every write/truncate re-establishes), writing `bytes` at an offset
inside or at the end of the prior content succeeds, and reading back
`bytes.length` bytes at the same offset returns exactly `bytes` — both for
in-place overwrites and for writes extending past the prior length. -/
theorem write_read_roundtrip (d : DriveItem) (buf bytes : List Nat) (off : Nat)
    (hbuf : d.core.data = some buf)
    (hsize : d.core.SizeInternal = buf.length)
    (hoff : off ≤ buf.length) :
    ∃ w, d.Write bytes off = some w ∧
      w.item.Read bytes.length off = some { bytes := bytes, status := fuseOK } := by
  have hno : ¬ off > buf.length := by omega
  have htakelen : (buf.take off).length = off := by
    rw [List.length_take]
    omega
  by_cases hc : ((off : Int) + bytes.length > (d.core.SizeInternal : Int) - 1)
  · -- append branch
    have hW : d.Write bytes off
        = some { nWritten := bytes.length % 2 ^ 32, status := fuseOK,
                 item := .mk { d.core with
                                 data := some (buf.take off ++ bytes),
                                 SizeInternal := (buf.take off ++ bytes).length,
                                 hasChanges := true } } := by
      simp [DriveItem.Write, hbuf, hno, hc]
    refine ⟨_, hW, ?_⟩
    have hlen : (buf.take off ++ bytes).length = off + bytes.length := by
      rw [List.length_append, htakelen]
    have hdl : (buf.take off ++ bytes).drop off = bytes := by
      have h2 := List.drop_left (buf.take off) bytes
      rwa [htakelen] at h2
    have hle : ¬ off > off + bytes.length := by omega
    simp [DriveItem.Read, hlen, hdl, hle, Nat.add_sub_cancel_left, Nat.min_self,
      List.take_length]
  · -- in-place branch
    have h1 : off + bytes.length < buf.length := by
      rw [hsize] at hc
      omega
    have hW : d.Write bytes off
        = some { nWritten := bytes.length % 2 ^ 32, status := fuseOK,
                 item := .mk { d.core with
                                 data := some (buf.take off ++ goSliceCopy (buf.drop off) bytes),
                                 SizeInternal :=
                                   (buf.take off ++ goSliceCopy (buf.drop off) bytes).length,
                                 hasChanges := true } } := by
      simp [DriveItem.Write, hbuf, hno, hc]
    refine ⟨_, hW, ?_⟩
    have hmin : min bytes.length (buf.drop off).length = bytes.length := by
      rw [List.length_drop]
      omega
    have hgs : goSliceCopy (buf.drop off) bytes
        = bytes ++ (buf.drop off).drop bytes.length := by
      rw [goSliceCopy, hmin, List.take_length]
    have hlen2 : (buf.take off ++ goSliceCopy (buf.drop off) bytes).length = buf.length := by
      rw [hgs, List.length_append, htakelen, List.length_append, List.length_drop,
        List.length_drop]
      omega
    have hdl2 : (buf.take off ++ goSliceCopy (buf.drop off) bytes).drop off
        = bytes ++ (buf.drop off).drop bytes.length := by
      have h2 := List.drop_left (buf.take off) (bytes ++ (buf.drop off).drop bytes.length)
      rw [htakelen] at h2
      rw [hgs, h2]
    have hmin2 : min (off + bytes.length) buf.length = off + bytes.length := by
      omega
    have hle : ¬ off > off + bytes.length := by omega
    have htk : (bytes ++ (buf.drop off).drop bytes.length).take bytes.length = bytes :=
      List.take_left bytes ((buf.drop off).drop bytes.length)
    simp [DriveItem.Read, hlen2, hdl2, hmin2, hle, Nat.add_sub_cancel_left, htk]

/-- C2 witness: the theorem evaluated on the concrete file (buffer [1, 2],
declared size 2) with an appending write of [9, 9, 9] at offset 1. -/
theorem write_read_roundtrip_witness :
    ∃ w, sampleFile.Write [9, 9, 9] 1 = some w ∧
      w.item.Read 3 1 = some { bytes := [9, 9, 9], status := fuseOK } :=
  write_read_roundtrip sampleFile [1, 2] [9, 9, 9] 1 rfl rfl (by decide)

/-- A concrete file with three bytes of content, for the truncation claim. -/
def threeByteFile : DriveItem := .mk
  { IDInternal := "f3", NameInternal := "log.txt", SizeInternal := 3, mode := 0,
    Parent := { ID := "dirid", Path := "/drive/root:/docs" },
    FileInternal := some { MimeType := "text/plain" }, Folder := none,
    data := some [1, 2, 3], hasChanges := false, subdir := 0, auth := none, children := none }

/-- threeByteFile after Truncate 2, written out field by field. -/
def threeByteFileTrunc : DriveItem := .mk
  { IDInternal := "f3", NameInternal := "log.txt", SizeInternal := 2, mode := 0,
    Parent := { ID := "dirid", Path := "/drive/root:/docs" },
    FileInternal := some { MimeType := "text/plain" }, Folder := none,
    data := some [1, 2], hasChanges := true, subdir := 0, auth := none, children := none }

/-- C4 counterexample: after Truncate 2 on a three-byte file, a Read at
offset 3 — strictly beyond the new size — evaluates the slice
(*d.data)[3:2], whose bounds are inverted: Go panics instead of returning
zero bytes, so the Read yields no ReadOut at all. -/
theorem read_beyond_truncation_panics_cx :
    threeByteFile.Truncate 2 = some { status := fuseOK, item := threeByteFileTrunc } ∧
    threeByteFileTrunc.Read 1 3 = none ∧
    threeByteFileTrunc.Read 1 2 = some { bytes := [], status := fuseOK } := by
  exact ⟨rfl, rfl, rfl⟩

/-- C4 (amended): for a file item and a size n no larger than the buffer
length, Truncate n succeeds, Size() then returns n, and a Read at offset
exactly n returns zero bytes; a Read at an offset strictly beyond n hits an
inverted slice bound and panics (modeled as none) rather than returning
zero bytes. -/
theorem truncate_size_read (d : DriveItem) (buf : List Nat) (n bufLen : Nat)
    (hfile : d.IsDir = false) (hbuf : d.core.data = some buf)
    (hn : n ≤ buf.length) :
    ∃ t, d.Truncate n = some t ∧ t.item.Size = n ∧
      t.item.Read bufLen n = some { bytes := [], status := fuseOK } ∧
      (∀ off, n < off → t.item.Read bufLen off = none) := by
  have hno : ¬ n > buf.length := by omega
  have hT : d.Truncate n
      = some { status := fuseOK,
               item := .mk { d.core with data := some (buf.take n),
                                         SizeInternal := n,
                                         hasChanges := true } } := by
    simp [DriveItem.Truncate, hbuf, hno]
  refine ⟨_, hT, ?_, ?_, ?_⟩
  · have hdir := isDir_congr d (DriveItem.mk { d.core with
        data := some (buf.take n), SizeInternal := n, hasChanges := true }) rfl rfl
    simp [DriveItem.Size, hdir.trans hfile]
  · have hlen : (buf.take n).length = n := by
      rw [List.length_take]
      omega
    have hmin : min (n + bufLen) (buf.take n).length = n := by
      rw [hlen]
      omega
    simp [DriveItem.Read, hmin, hn]
  · intro off hoff
    have hlen : (buf.take n).length = n := by
      rw [List.length_take]
      omega
    have hmin : min (off + bufLen) (buf.take n).length = n := by
      rw [hlen]
      omega
    simp [DriveItem.Read, hmin]
    omega

/-- C4 witness: the amended theorem evaluated on the concrete three-byte
file with n = 2 and a one-byte read buffer. -/
theorem truncate_size_read_witness :
    ∃ t, threeByteFile.Truncate 2 = some t ∧ t.item.Size = 2 ∧
      t.item.Read 1 2 = some { bytes := [], status := fuseOK } ∧
      (∀ off, 2 < off → t.item.Read 1 off = none) :=
  truncate_size_read threeByteFile [1, 2, 3] 2 1 (by decide) rfl (by decide)

/-- C1: for a file item with no cached identifier, when the placeholder Put
fails with a nameAlreadyExists error: if another caller has set the live
item's identifier by re-check time, that identifier is returned with no
error; otherwise the transport is queried by the item's path, a successful
query returns the already-existing remote item's identifier, and a failing
query propagates the original upload error — not the query's error, which
the shadowed inner binding discards. -/
theorem id_name_exists_recovery (d : DriveItem) (auth : Auth) (w : IDWorld) (e : GoError)
    (hfile : d.IsDir = false) (hid : d.core.IDInternal = "")
    (htok : auth.AccessToken ≠ "")
    (hput : w.put (uploadPathOf d) = .error e)
    (hmsg : strContains e.msg.toList "nameAlreadyExists".toList = true) :
    (w.atRecheck.core.IDInternal ≠ "" →
      d.ID auth w = { id := w.atRecheck.core.IDInternal, err := none, item := d,
                      putArg := some (uploadPathOf d), getItemArg := none }) ∧
    (w.atRecheck.core.IDInternal = "" →
      (∀ latest, w.getItem w.atRecheck.Path = .ok latest →
        d.ID auth w = { id := latest.core.IDInternal, err := none, item := d,
                        putArg := some (uploadPathOf d),
                        getItemArg := some w.atRecheck.Path }) ∧
      (∀ e2, w.getItem w.atRecheck.Path = .error e2 →
        d.ID auth w = { id := "", err := some e, item := d,
                        putArg := some (uploadPathOf d),
                        getItemArg := some w.atRecheck.Path })) := by
  have hmsg2 : strContains e.msg.data
      ['n', 'a', 'm', 'e', 'A', 'l', 'r', 'e', 'a', 'd', 'y',
       'E', 'x', 'i', 's', 't', 's'] = true := hmsg
  constructor
  · intro hrc
    simp [DriveItem.ID, hfile, hid, htok, hput, hmsg2, hrc]
  · intro hrc
    constructor
    · intro latest hget
      simp [DriveItem.ID, hfile, hid, htok, hput, hmsg2, hrc, hget]
    · intro e2 hget
      simp [DriveItem.ID, hfile, hid, htok, hput, hmsg2, hrc, hget]

/-- The error a conflicting placeholder upload produces. -/
def conflictErr : GoError := { msg := "409: nameAlreadyExists (ETag mismatch)" }

/-- A world in which the placeholder Put reports a name conflict, the live
item still has no identifier at re-check time, and the path query fails
with a distinct error. -/
def wConflict : IDWorld :=
  { put := fun _ => .error conflictErr, atRecheck := sampleFile,
    getItem := fun _ => .error { msg := "getItem failed" },
    unmarshalID := fun _ => .ok "unused" }

/-- C1 witness: the theorem evaluated on a concrete file item and a world
whose Put conflicts; the concluded conjunction covers the re-check,
successful-query and failing-query branches at that input. -/
theorem id_name_exists_recovery_witness :
    (wConflict.atRecheck.core.IDInternal ≠ "" →
      sampleFile.ID { AccessToken := "tok" } wConflict
        = { id := wConflict.atRecheck.core.IDInternal, err := none, item := sampleFile,
            putArg := some (uploadPathOf sampleFile), getItemArg := none }) ∧
    (wConflict.atRecheck.core.IDInternal = "" →
      (∀ latest, wConflict.getItem wConflict.atRecheck.Path = .ok latest →
        sampleFile.ID { AccessToken := "tok" } wConflict
          = { id := latest.core.IDInternal, err := none, item := sampleFile,
              putArg := some (uploadPathOf sampleFile),
              getItemArg := some wConflict.atRecheck.Path }) ∧
      (∀ e2, wConflict.getItem wConflict.atRecheck.Path = .error e2 →
        sampleFile.ID { AccessToken := "tok" } wConflict
          = { id := "", err := some conflictErr, item := sampleFile,
              putArg := some (uploadPathOf sampleFile),
              getItemArg := some wConflict.atRecheck.Path })) :=
  id_name_exists_recovery sampleFile { AccessToken := "tok" } wConflict conflictErr
    (by decide) rfl (by decide) rfl (by decide)
